import Mathlib

/-!
Shallow embedding of the stateful stream-correlation core of the
Proactive Financial Monitor (monitor_agent.py): per-ticker state,
the stock-price handler with its threshold/cooldown trigger, the
news handler with its bounded sentiment window, and the sentiment
classification adapter.  Prices and timestamps are modelled as
rationals (timestamps in seconds), the per-ticker dictionary as an
association list, and the two LLM calls as abstract outcome values.
-/

attribute [local semireducible] Rat.mul Rat.add Rat.sub Rat.inv

namespace PFM

/-- Message on the stock feed, mirroring `StockMessage` (ticker, price,
timestamp).  The timestamp is carried but unused by the stock handler,
which uses its own clock reading. -/
structure StockMessage where
  ticker : String
  price : ℚ
  timestamp : ℚ
deriving DecidableEq

/-- Message on the news feed, mirroring `NewsMessage` (headline, source,
timestamp). -/
structure NewsMessage where
  headline : String
  source : String
  timestamp : ℚ
deriving DecidableEq

/-- Per-ticker mutable record held in `agent_state`: the most recent price
(`None` until first recorded), the recent news sentiments as
(timestamp, sentiment) pairs, and the time of the last fired alert. -/
structure TickerState where
  last_price : Option ℚ
  recent_news_sentiments : List (ℚ × String)
  last_alert_time : Option ℚ
deriving DecidableEq

/-- The agent's state dictionary, ticker symbol to record, modelled as an
association list. -/
abbrev AgentState := List (String × TickerState)

/-- Initial `agent_state`: the target ticker NVDA is pre-initialized with
no price, an empty sentiment list and no alert time. -/
def agent_state_init : AgentState :=
  [("NVDA", ⟨none, [], none⟩)]

/-- Number of recent news sentiments to store (`MAX_NEWS_HISTORY = 3`). -/
def MAX_NEWS_HISTORY : Nat := 3

/-- Trigger threshold for price change percent (`5.0`). -/
def PRICE_CHANGE_THRESHOLD_PERCENT : ℚ := 5

/-- Cooldown period between alerts in seconds (`60 * 10`). -/
def ALERT_COOLDOWN_SECONDS : ℚ := 60 * 10

/-- Dictionary lookup (`ticker in agent_state` / `agent_state[ticker]`). -/
def lookupState : AgentState → String → Option TickerState
  | [], _ => none
  | (k, v) :: rest, key => if k = key then some v else lookupState rest key

/-- Dictionary write `agent_state[ticker] = record`: replaces the binding
when the key is present, inserts it otherwise. -/
def updateState : AgentState → String → TickerState → AgentState
  | [], key, v => [(key, v)]
  | (k, v') :: rest, key, v =>
      if k = key then (key, v) :: rest else (k, v') :: updateState rest key v

/-- Check that `pat` is an initial segment of `l`. -/
def listStartsWith : List Char → List Char → Bool
  | _, [] => true
  | [], _ :: _ => false
  | c :: cs, p :: ps => c == p && listStartsWith cs ps

/-- Check that `pat` occurs as a contiguous segment of `l`. -/
def listContainsSeg : List Char → List Char → Bool
  | [], pat => pat.isEmpty
  | c :: cs, pat => listStartsWith (c :: cs) pat || listContainsSeg cs pat

/-- Python's substring test `pat in s`, on the strings' character lists. -/
def strContains (s pat : String) : Bool :=
  listContainsSeg s.toList pat.toList

/-- Python's `str.upper()` (the sentiment words compared against are
ASCII, for which `Char.toUpper` agrees with Python). -/
def pyUpper (s : String) : String :=
  String.mk (s.toList.map Char.toUpper)

/-- Python's `str.strip()`: drop leading and trailing whitespace. -/
def pyStrip (s : String) : String :=
  String.mk (((s.toList.dropWhile Char.isWhitespace).reverse.dropWhile
    Char.isWhitespace).reverse)

/-- Group a character list into the maximal runs separated by whitespace;
whitespace contributes empty groups that are filtered out afterwards. -/
def splitWSGroups : List Char → List (List Char)
  | [] => []
  | c :: cs =>
      let rest := splitWSGroups cs
      if c.isWhitespace then [] :: rest
      else
        match rest with
        | [] => [[c]]
        | w :: ws => (c :: w) :: ws

/-- Python's no-argument `str.split()`: split on whitespace runs, dropping
empty parts. -/
def pySplitWhitespace (s : String) : List String :=
  ((splitWSGroups s.toList).filter (fun w => !w.isEmpty)).map
    (fun w => String.mk w)

/-- The `valid_sentiments` list used by the classification adapter. -/
def VALID_SENTIMENTS : List String := ["POSITIVE", "NEGATIVE", "NEUTRAL"]

/-- Sentiment extraction from the model's reply (already stripped and
upper-cased): first look for an exact word match, then for a contained
match, else UNKNOWN. -/
def extractSentiment (sentiment : String) : String :=
  let response_words := pySplitWhitespace sentiment
  match VALID_SENTIMENTS.find? (fun valid => response_words.contains valid) with
  | some valid => valid
  | none =>
      match VALID_SENTIMENTS.find? (fun valid => strContains sentiment valid) with
      | some valid => valid
      | none => "UNKNOWN"

/-- Outcome of the sentiment-chain call for one headline: the chain was
never initialized, the API call raised, or it returned reply text. -/
inductive LLMOutcome where
  | unavailable
  | apiError
  | response (content : String)
deriving DecidableEq

/-- The helper `analyze_news_sentiment`: returns ERROR_LLM_UNAVAILABLE when
the chain is missing, ERROR_API_CALL when the call raised, and otherwise
extracts a sentiment from the reply after `strip().upper()`.  The headline
only feeds the prompt; the reply is abstracted by `outcome`. -/
def analyze_news_sentiment (_headline : String) (outcome : LLMOutcome) : String :=
  match outcome with
  | .unavailable => "ERROR_LLM_UNAVAILABLE"
  | .apiError => "ERROR_API_CALL"
  | .response content => extractSentiment (pyUpper (pyStrip content))

/-- Stable descending insertion by timestamp: the new element goes after
every element with a greater-or-equal timestamp, exactly where Python's
stable `list.sort(key=..., reverse=True)` keeps an element that was
appended last. -/
def insertByTimeDesc (x : ℚ × String) : List (ℚ × String) → List (ℚ × String)
  | [] => [x]
  | y :: ys => if y.1 ≤ x.1 then x :: y :: ys else y :: insertByTimeDesc x ys

/-- Model of `sentiments.sort(key=lambda item: item[0], reverse=True)`:
stable sort by timestamp, most recent first. -/
def sortByTimeDesc : List (ℚ × String) → List (ℚ × String)
  | [] => []
  | x :: xs => insertByTimeDesc x (sortByTimeDesc xs)

/-- Outcome of the proactive-insight chain call: the chain was never
initialized, the call raised, or it returned insight text. -/
inductive InsightOutcome where
  | unavailable
  | failure
  | success (text : String)
deriving DecidableEq

/-- Result of one stock-handler invocation: the new agent state, whether
the trigger fired, and the generated insight text if any was produced. -/
structure StockResult where
  state : AgentState
  fired : Bool
  insightLog : Option String
deriving DecidableEq

/-- The trigger check of the stock handler: significant price change AND
cooldown period elapsed.  `time_since_last_alert` is infinite when no alert
has fired yet, which the `none` arm renders as an elapsed cooldown. -/
def triggerFires (price_change_percent : ℚ) (last_alert_time : Option ℚ)
    (now : ℚ) : Bool :=
  decide (|price_change_percent| ≥ PRICE_CHANGE_THRESHOLD_PERCENT) &&
    match last_alert_time with
    | none => true
    | some t => decide (now - t > ALERT_COOLDOWN_SECONDS)

/-- The `stock_feed` handler `handle_stock_message`.  `now` is the clock
reading `datetime.datetime.now()` taken during the trigger check, and
`insight` abstracts the proactive-insight chain call made on fire. -/
def handle_stock_message (st : AgentState) (msg : StockMessage) (now : ℚ)
    (insight : InsightOutcome) : StockResult :=
  if msg.ticker = "" ∨ msg.price ≤ 0 then
    ⟨st, false, none⟩
  else
    match lookupState st msg.ticker with
    | none =>
        ⟨updateState st msg.ticker ⟨some msg.price, [], none⟩, false, none⟩
    | some ts =>
        match ts.last_price with
        | none =>
            ⟨updateState st msg.ticker { ts with last_price := some msg.price }, false, none⟩
        | some last_price =>
            if last_price > 0 then
              let price_change_percent := (msg.price - last_price) / last_price * 100
              if triggerFires price_change_percent ts.last_alert_time now then
                let insightLog : Option String :=
                  match insight with
                  | .success text => some (pyStrip text)
                  | _ => none
                ⟨updateState st msg.ticker
                  { ts with last_price := some msg.price, last_alert_time := some now },
                 true, insightLog⟩
              else
                ⟨updateState st msg.ticker { ts with last_price := some msg.price }, false, none⟩
            else
              ⟨updateState st msg.ticker { ts with last_price := some msg.price }, false, none⟩

/-- The `news_feed` handler `handle_news_message`: validate the headline,
classify it, and when the target ticker's record exists and the sentiment
is neither an error marker nor UNKNOWN, append the (timestamp, sentiment)
pair, re-sort most-recent-first, and truncate to `MAX_NEWS_HISTORY`. -/
def handle_news_message (st : AgentState) (msg : NewsMessage)
    (outcome : LLMOutcome) : AgentState :=
  if msg.headline = "" then st
  else
    let sentiment := analyze_news_sentiment msg.headline outcome
    let ticker := "NVDA"
    match lookupState st ticker with
    | none => st
    | some ts =>
        if (!strContains sentiment "ERROR") && (sentiment != "UNKNOWN") then
          let sentiments := ts.recent_news_sentiments ++ [(msg.timestamp, sentiment)]
          let sorted := sortByTimeDesc sentiments
          updateState st ticker
            { ts with recent_news_sentiments := sorted.take MAX_NEWS_HISTORY }
        else st

/-- One inbound event: a stock message together with the clock reading and
insight-call outcome of its handling, or a news message together with the
sentiment-chain outcome of its handling. -/
inductive Event where
  | price (msg : StockMessage) (now : ℚ) (insight : InsightOutcome)
  | news (msg : NewsMessage) (outcome : LLMOutcome)
deriving DecidableEq

/-- Dispatch one event to its handler. -/
def processEvent (st : AgentState) : Event → AgentState
  | .price msg now insight => (handle_stock_message st msg now insight).state
  | .news msg outcome => handle_news_message st msg outcome

/-- Process a sequence of events in order. -/
def processEvents (st : AgentState) (events : List Event) : AgentState :=
  events.foldl processEvent st

/-- An event is a stock message for ticker `t` that passes the handler's
input validation. -/
def IsValidPriceEventFor (t : String) : Event → Prop
  | .price msg _ _ => msg.ticker = t ∧ msg.ticker ≠ "" ∧ 0 < msg.price
  | .news _ _ => False

/-- Ticker `t` has no recorded price yet: either no record at all, or a
record whose `last_price` is still `None`. -/
def NoPriceRecord (st : AgentState) (t : String) : Prop :=
  lookupState st t = none ∨
    ∃ ts, lookupState st t = some ts ∧ ts.last_price = none

/-- Well-formed sentiment window: at most `MAX_NEWS_HISTORY` entries and
every adjacent pair ordered by non-increasing timestamp. -/
def windowWF (w : List (ℚ × String)) : Prop :=
  w.length ≤ MAX_NEWS_HISTORY ∧ List.Chain' (fun a b => b.1 ≤ a.1) w

/-- Every record in the state has a well-formed sentiment window. -/
def stateWF (st : AgentState) : Prop :=
  ∀ k ts, lookupState st k = some ts → windowWF ts.recent_news_sentiments

theorem lookup_updateState_self (st : AgentState) (k : String) (v : TickerState) :
    lookupState (updateState st k v) k = some v := by
  induction st with
  | nil => simp [updateState, lookupState]
  | cons hd tl ih =>
      obtain ⟨k', v'⟩ := hd
      by_cases h : k' = k
      · simp [updateState, lookupState, h]
      · simp [updateState, lookupState, h, ih]

theorem lookup_updateState_ne (st : AgentState) (k k' : String) (v : TickerState)
    (h : k' ≠ k) :
    lookupState (updateState st k v) k' = lookupState st k' := by
  induction st with
  | nil => simp [updateState, lookupState, Ne.symm h]
  | cons hd tl ih =>
      obtain ⟨k0, v0⟩ := hd
      by_cases h0 : k0 = k
      · subst h0
        simp [updateState, lookupState, Ne.symm h]
      · simp [updateState, lookupState, h0, ih]

theorem mem_insertByTimeDesc {z x : ℚ × String} {l : List (ℚ × String)} :
    z ∈ insertByTimeDesc x l ↔ z = x ∨ z ∈ l := by
  induction l with
  | nil => simp [insertByTimeDesc]
  | cons y ys ih =>
      by_cases h : y.1 ≤ x.1
      · simp [insertByTimeDesc, h]
      · simp [insertByTimeDesc, h, ih]
        tauto

theorem pairwise_insertByTimeDesc (x : ℚ × String) (l : List (ℚ × String))
    (hl : l.Pairwise (fun a b => b.1 ≤ a.1)) :
    (insertByTimeDesc x l).Pairwise (fun a b => b.1 ≤ a.1) := by
  induction l with
  | nil => simp [insertByTimeDesc]
  | cons y ys ih =>
      rcases List.pairwise_cons.mp hl with ⟨hy, hys⟩
      by_cases h : y.1 ≤ x.1
      · simp only [insertByTimeDesc, if_pos h]
        refine List.pairwise_cons.mpr ⟨?_, hl⟩
        intro z hz
        rcases List.mem_cons.mp hz with hz | hz
        · subst hz
          exact h
        · exact le_trans (hy z hz) h
      · simp only [insertByTimeDesc, if_neg h]
        refine List.pairwise_cons.mpr ⟨?_, ih hys⟩
        intro z hz
        rcases mem_insertByTimeDesc.mp hz with hz | hz
        · subst hz
          exact le_of_not_le h
        · exact hy z hz

theorem mem_sortByTimeDesc {z : ℚ × String} {l : List (ℚ × String)} :
    z ∈ sortByTimeDesc l ↔ z ∈ l := by
  induction l with
  | nil => simp [sortByTimeDesc]
  | cons x xs ih => simp [sortByTimeDesc, mem_insertByTimeDesc, ih]

theorem pairwise_sortByTimeDesc (l : List (ℚ × String)) :
    (sortByTimeDesc l).Pairwise (fun a b => b.1 ≤ a.1) := by
  induction l with
  | nil => simp [sortByTimeDesc]
  | cons x xs ih => exact pairwise_insertByTimeDesc x _ ih

theorem news_invalid (st : AgentState) (msg : NewsMessage) (o : LLMOutcome)
    (h : msg.headline = "") :
    handle_news_message st msg o = st := by
  unfold handle_news_message
  simp [h]

/-- The new-window value the news handler writes on its persisting path. -/
def newsWindow (ts : TickerState) (msg : NewsMessage) (o : LLMOutcome) :
    List (ℚ × String) :=
  (sortByTimeDesc (ts.recent_news_sentiments ++
    [(msg.timestamp, analyze_news_sentiment msg.headline o)])).take MAX_NEWS_HISTORY

theorem news_cases (st : AgentState) (msg : NewsMessage) (o : LLMOutcome) :
    handle_news_message st msg o = st ∨
    ∃ ts, lookupState st "NVDA" = some ts ∧
      ((!strContains (analyze_news_sentiment msg.headline o) "ERROR") &&
        (analyze_news_sentiment msg.headline o != "UNKNOWN")) = true ∧
      handle_news_message st msg o = updateState st "NVDA"
        { ts with recent_news_sentiments := newsWindow ts msg o } := by
  have aux : ∀ r : AgentState, handle_news_message st msg o = r →
      r = st ∨
      ∃ ts, lookupState st "NVDA" = some ts ∧
        ((!strContains (analyze_news_sentiment msg.headline o) "ERROR") &&
          (analyze_news_sentiment msg.headline o != "UNKNOWN")) = true ∧
        r = updateState st "NVDA"
          { ts with recent_news_sentiments := newsWindow ts msg o } := by
    intro r hr
    unfold handle_news_message at hr
    dsimp only at hr
    split at hr
    · exact Or.inl hr.symm
    · split at hr
      · exact Or.inl hr.symm
      · split at hr
        · rename_i ts heq hguard
          exact Or.inr ⟨ts, heq, hguard, hr.symm⟩
        · exact Or.inl hr.symm
  exact aux _ rfl

theorem stock_invalid (st : AgentState) (msg : StockMessage) (now : ℚ)
    (ins : InsightOutcome) (h : msg.ticker = "" ∨ msg.price ≤ 0) :
    handle_stock_message st msg now ins = ⟨st, false, none⟩ := by
  unfold handle_stock_message
  simp [h]

theorem stock_cases (st : AgentState) (msg : StockMessage) (now : ℚ)
    (ins : InsightOutcome) :
    ((msg.ticker = "" ∨ msg.price ≤ 0) ∧
      (handle_stock_message st msg now ins).state = st ∧
      (handle_stock_message st msg now ins).fired = false) ∨
    (¬ (msg.ticker = "" ∨ msg.price ≤ 0) ∧
      lookupState st msg.ticker = none ∧
      (handle_stock_message st msg now ins).state
        = updateState st msg.ticker ⟨some msg.price, [], none⟩ ∧
      (handle_stock_message st msg now ins).fired = false) ∨
    (¬ (msg.ticker = "" ∨ msg.price ≤ 0) ∧
      ∃ ts, lookupState st msg.ticker = some ts ∧
      (handle_stock_message st msg now ins).state
        = updateState st msg.ticker
            ⟨some msg.price, ts.recent_news_sentiments, ts.last_alert_time⟩ ∧
      (handle_stock_message st msg now ins).fired = false ∧
      (ts.last_price = none ∨
        ∃ lp, ts.last_price = some lp ∧
          (¬ lp > 0 ∨
            triggerFires ((msg.price - lp) / lp * 100) ts.last_alert_time now
              = false))) ∨
    (¬ (msg.ticker = "" ∨ msg.price ≤ 0) ∧
      ∃ ts lp, lookupState st msg.ticker = some ts ∧ ts.last_price = some lp ∧
      lp > 0 ∧
      triggerFires ((msg.price - lp) / lp * 100) ts.last_alert_time now = true ∧
      (handle_stock_message st msg now ins).state
        = updateState st msg.ticker
            ⟨some msg.price, ts.recent_news_sentiments, some now⟩ ∧
      (handle_stock_message st msg now ins).fired = true) := by
  have aux : ∀ r : StockResult, handle_stock_message st msg now ins = r →
      ((msg.ticker = "" ∨ msg.price ≤ 0) ∧ r.state = st ∧ r.fired = false) ∨
      (¬ (msg.ticker = "" ∨ msg.price ≤ 0) ∧
        lookupState st msg.ticker = none ∧
        r.state = updateState st msg.ticker ⟨some msg.price, [], none⟩ ∧
        r.fired = false) ∨
      (¬ (msg.ticker = "" ∨ msg.price ≤ 0) ∧
        ∃ ts, lookupState st msg.ticker = some ts ∧
        r.state = updateState st msg.ticker
            ⟨some msg.price, ts.recent_news_sentiments, ts.last_alert_time⟩ ∧
        r.fired = false ∧
        (ts.last_price = none ∨
          ∃ lp, ts.last_price = some lp ∧
            (¬ lp > 0 ∨
              triggerFires ((msg.price - lp) / lp * 100) ts.last_alert_time now
                = false))) ∨
      (¬ (msg.ticker = "" ∨ msg.price ≤ 0) ∧
        ∃ ts lp, lookupState st msg.ticker = some ts ∧ ts.last_price = some lp ∧
        lp > 0 ∧
        triggerFires ((msg.price - lp) / lp * 100) ts.last_alert_time now = true ∧
        r.state = updateState st msg.ticker
            ⟨some msg.price, ts.recent_news_sentiments, some now⟩ ∧
        r.fired = true) := by
    intro r hr
    unfold handle_stock_message at hr
    dsimp only at hr
    split at hr
    · rename_i hv
      exact Or.inl ⟨hv, by rw [← hr]; exact ⟨rfl, rfl⟩⟩
    · rename_i hnv
      split at hr
      · rename_i heq
        exact Or.inr (Or.inl ⟨hnv, heq, by rw [← hr]; exact ⟨rfl, rfl⟩⟩)
      · rename_i ts heq
        split at hr
        · rename_i hlpn
          exact Or.inr (Or.inr (Or.inl ⟨hnv, ts, heq,
            by rw [← hr], by rw [← hr], Or.inl hlpn⟩))
        · rename_i lp hlps
          split at hr
          · rename_i hpos
            split at hr
            · rename_i hfire
              exact Or.inr (Or.inr (Or.inr ⟨hnv, ts, lp, heq, hlps, hpos, hfire,
                by rw [← hr], by rw [← hr]⟩))
            · rename_i hfire
              exact Or.inr (Or.inr (Or.inl ⟨hnv, ts, heq,
                by rw [← hr], by rw [← hr],
                Or.inr ⟨lp, hlps, Or.inr (Bool.not_eq_true _ ▸ hfire)⟩⟩))
          · rename_i hpos
            exact Or.inr (Or.inr (Or.inl ⟨hnv, ts, heq,
              by rw [← hr], by rw [← hr],
              Or.inr ⟨lp, hlps, Or.inl hpos⟩⟩))
  exact aux _ rfl

theorem stock_lookup_ne (st : AgentState) (msg : StockMessage) (now : ℚ)
    (ins : InsightOutcome) (k : String) (h : k ≠ msg.ticker) :
    lookupState (handle_stock_message st msg now ins).state k = lookupState st k := by
  rcases stock_cases st msg now ins with ⟨_, h1, _⟩ | ⟨_, _, h1, _⟩ |
      ⟨_, ts, _, h1, _⟩ | ⟨_, ts, lp, _, _, _, _, h1, _⟩ <;>
    rw [h1]
  · exact lookup_updateState_ne _ _ _ _ h
  · exact lookup_updateState_ne _ _ _ _ h
  · exact lookup_updateState_ne _ _ _ _ h

theorem news_lookup_ne (st : AgentState) (msg : NewsMessage) (o : LLMOutcome)
    (k : String) (h : k ≠ "NVDA") :
    lookupState (handle_news_message st msg o) k = lookupState st k := by
  rcases news_cases st msg o with h1 | ⟨ts, _, _, h1⟩ <;> rw [h1]
  exact lookup_updateState_ne _ _ _ _ h

theorem news_keys (st : AgentState) (msg : NewsMessage) (o : LLMOutcome)
    (k : String) :
    (lookupState (handle_news_message st msg o) k).isSome
      = (lookupState st k).isSome := by
  by_cases hk : k = "NVDA"
  · subst hk
    rcases news_cases st msg o with h1 | ⟨ts, hts, _, h1⟩ <;> rw [h1]
    rw [lookup_updateState_self, hts]
    rfl
  · rw [news_lookup_ne _ _ _ _ hk]

theorem absent_news (st : AgentState) (msg : NewsMessage) (o : LLMOutcome)
    (t : String) (h : lookupState st t = none) :
    lookupState (handle_news_message st msg o) t = none := by
  by_cases hk : t = "NVDA"
  · subst hk
    rcases news_cases st msg o with hc | ⟨ts0, hts0, _, hc⟩
    · rw [hc]
      exact h
    · rw [h] at hts0
      cases hts0
  · rw [news_lookup_ne _ _ _ _ hk]
    exact h

theorem news_preserves_fields (st : AgentState) (msg : NewsMessage)
    (o : LLMOutcome) (k : String) (ts ts' : TickerState)
    (h1 : lookupState st k = some ts)
    (h2 : lookupState (handle_news_message st msg o) k = some ts') :
    ts'.last_price = ts.last_price ∧ ts'.last_alert_time = ts.last_alert_time := by
  by_cases hk : k = "NVDA"
  · subst hk
    rcases news_cases st msg o with hc | ⟨ts0, hts0, _, hc⟩
    · rw [hc, h1] at h2
      cases h2
      exact ⟨rfl, rfl⟩
    · rw [hc, lookup_updateState_self] at h2
      rw [hts0] at h1
      cases h1
      cases h2
      exact ⟨rfl, rfl⟩
  · rw [news_lookup_ne _ _ _ _ hk, h1] at h2
    cases h2
    exact ⟨rfl, rfl⟩

theorem extractSentiment_cases (s : String) :
    extractSentiment s ∈ VALID_SENTIMENTS ∨ extractSentiment s = "UNKNOWN" := by
  have aux : ∀ r, extractSentiment s = r →
      r ∈ VALID_SENTIMENTS ∨ r = "UNKNOWN" := by
    intro r hr
    unfold extractSentiment at hr
    dsimp only at hr
    split at hr
    · rename_i v hv
      exact Or.inl (hr ▸ List.mem_of_find?_eq_some hv)
    · split at hr
      · rename_i v hv
        exact Or.inl (hr ▸ List.mem_of_find?_eq_some hv)
      · exact Or.inr hr.symm
  exact aux _ rfl

theorem analyze_result_set (h : String) (o : LLMOutcome) :
    analyze_news_sentiment h o ∈
      ["POSITIVE", "NEGATIVE", "NEUTRAL", "UNKNOWN",
       "ERROR_LLM_UNAVAILABLE", "ERROR_API_CALL"] := by
  cases o with
  | unavailable => simp [analyze_news_sentiment]
  | apiError => simp [analyze_news_sentiment]
  | response content =>
      show extractSentiment (pyUpper (pyStrip content)) ∈ _
      rcases extractSentiment_cases (pyUpper (pyStrip content)) with hm | hm
      · simp only [VALID_SENTIMENTS, List.mem_cons, List.not_mem_nil, or_false] at hm
        rcases hm with h1 | h1 | h1 <;> simp [h1]
      · simp [hm]

theorem windowWF_newsWindow (ts : TickerState) (msg : NewsMessage)
    (o : LLMOutcome) : windowWF (newsWindow ts msg o) := by
  constructor
  · exact List.length_take_le _ _
  · have hp := pairwise_sortByTimeDesc (ts.recent_news_sentiments ++
      [(msg.timestamp, analyze_news_sentiment msg.headline o)])
    exact (hp.sublist (List.take_sublist _ _)).chain'

theorem stateWF_init : stateWF agent_state_init := by
  intro k ts h
  unfold agent_state_init lookupState at h
  split at h
  · cases h
    exact ⟨by simp [MAX_NEWS_HISTORY], List.chain'_nil⟩
  · cases h

theorem stateWF_news (st : AgentState) (msg : NewsMessage) (o : LLMOutcome)
    (h : stateWF st) : stateWF (handle_news_message st msg o) := by
  intro k ts' hk
  rcases news_cases st msg o with hc | ⟨ts0, hts0, _, hc⟩
  · rw [hc] at hk
    exact h k ts' hk
  · rw [hc] at hk
    by_cases hkn : k = "NVDA"
    · subst hkn
      rw [lookup_updateState_self] at hk
      cases hk
      exact windowWF_newsWindow ts0 msg o
    · rw [lookup_updateState_ne _ _ _ _ hkn] at hk
      exact h k ts' hk

theorem stateWF_stock (st : AgentState) (msg : StockMessage) (now : ℚ)
    (ins : InsightOutcome) (h : stateWF st) :
    stateWF (handle_stock_message st msg now ins).state := by
  intro k ts' hk
  rcases stock_cases st msg now ins with ⟨_, hc, _⟩ | ⟨_, _, hc, _⟩ |
      ⟨_, ts, hts, hc, _⟩ | ⟨_, ts, lp, hts, _, _, _, hc, _⟩ <;> rw [hc] at hk
  · exact h k ts' hk
  · by_cases hkn : k = msg.ticker
    · subst hkn
      rw [lookup_updateState_self] at hk
      cases hk
      exact ⟨by simp [MAX_NEWS_HISTORY], List.chain'_nil⟩
    · rw [lookup_updateState_ne _ _ _ _ hkn] at hk
      exact h k ts' hk
  · by_cases hkn : k = msg.ticker
    · subst hkn
      rw [lookup_updateState_self] at hk
      cases hk
      exact h _ ts hts
    · rw [lookup_updateState_ne _ _ _ _ hkn] at hk
      exact h k ts' hk
  · by_cases hkn : k = msg.ticker
    · subst hkn
      rw [lookup_updateState_self] at hk
      cases hk
      exact h _ ts hts
    · rw [lookup_updateState_ne _ _ _ _ hkn] at hk
      exact h k ts' hk

theorem stateWF_processEvents (events : List Event) (st : AgentState)
    (h : stateWF st) : stateWF (processEvents st events) := by
  induction events generalizing st with
  | nil => exact h
  | cons e es ih =>
      refine ih (processEvent st e) ?_
      cases e with
      | price msg now ins => exact stateWF_stock st msg now ins h
      | news msg o => exact stateWF_news st msg o h

theorem invalid_price_of_not_valid (msg : StockMessage) (now : ℚ)
    (ins : InsightOutcome) (t : String)
    (hne : ¬ IsValidPriceEventFor t (.price msg now ins)) (hmt : msg.ticker = t) :
    msg.ticker = "" ∨ msg.price ≤ 0 := by
  unfold IsValidPriceEventFor at hne
  by_cases h1 : msg.ticker = ""
  · exact Or.inl h1
  · by_cases h2 : 0 < msg.price
    · exact absurd ⟨hmt, h1, h2⟩ hne
    · exact Or.inr (le_of_not_lt h2)

theorem noPrice_init (t : String) : NoPriceRecord agent_state_init t := by
  unfold NoPriceRecord agent_state_init lookupState
  by_cases h : ("NVDA" : String) = t
  · exact Or.inr ⟨⟨none, [], none⟩, by rw [if_pos h], rfl⟩
  · exact Or.inl (by rw [if_neg h]; rfl)

theorem noPrice_preserve (st : AgentState) (t : String) (e : Event)
    (hnp : NoPriceRecord st t) (hne : ¬ IsValidPriceEventFor t e) :
    NoPriceRecord (processEvent st e) t := by
  cases e with
  | news msg o =>
      show NoPriceRecord (handle_news_message st msg o) t
      rcases hnp with h | ⟨ts, hts, hlp⟩
      · exact Or.inl (absent_news st msg o t h)
      · right
        cases hafter : lookupState (handle_news_message st msg o) t with
        | none =>
            have hks := news_keys st msg o t
            rw [hafter, hts] at hks
            simp at hks
        | some ts' =>
            refine ⟨ts', rfl, ?_⟩
            rw [(news_preserves_fields st msg o t ts ts' hts hafter).1, hlp]
  | price msg now ins =>
      by_cases hmt : msg.ticker = t
      · have hinv := invalid_price_of_not_valid msg now ins t hne hmt
        show NoPriceRecord (handle_stock_message st msg now ins).state t
        rw [stock_invalid st msg now ins hinv]
        exact hnp
      · show NoPriceRecord (handle_stock_message st msg now ins).state t
        rcases hnp with h | ⟨ts, hts, hlp⟩
        · exact Or.inl (by rw [stock_lookup_ne _ _ _ _ _ (Ne.symm hmt)]; exact h)
        · exact Or.inr ⟨ts, by rw [stock_lookup_ne _ _ _ _ _ (Ne.symm hmt)]; exact hts, hlp⟩

theorem noPrice_processEvents (t : String) (events : List Event) (st : AgentState)
    (hst : NoPriceRecord st t)
    (h : ∀ e ∈ events, ¬ IsValidPriceEventFor t e) :
    NoPriceRecord (processEvents st events) t := by
  induction events generalizing st with
  | nil => exact hst
  | cons e es ih =>
      exact ih (processEvent st e)
        (noPrice_preserve st t e hst (h e (List.mem_cons_self e es)))
        (fun e' he' => h e' (List.mem_cons_of_mem e he'))

theorem absent_stock (st : AgentState) (msg : StockMessage) (now : ℚ)
    (ins : InsightOutcome) (t : String)
    (hne : ¬ IsValidPriceEventFor t (.price msg now ins))
    (h : lookupState st t = none) :
    lookupState (handle_stock_message st msg now ins).state t = none := by
  by_cases hmt : msg.ticker = t
  · rw [stock_invalid st msg now ins (invalid_price_of_not_valid msg now ins t hne hmt)]
    exact h
  · rw [stock_lookup_ne _ _ _ _ _ (Ne.symm hmt)]
    exact h

theorem absent_processEvents (t : String) (events : List Event) (st : AgentState)
    (hst : lookupState st t = none)
    (h : ∀ e ∈ events, ¬ IsValidPriceEventFor t e) :
    lookupState (processEvents st events) t = none := by
  induction events generalizing st with
  | nil => exact hst
  | cons e es ih =>
      refine ih (processEvent st e) ?_ (fun e' he' => h e' (List.mem_cons_of_mem e he'))
      cases e with
      | price msg now ins =>
          exact absent_stock st msg now ins t (h _ (List.mem_cons_self _ es)) hst
      | news msg o => exact absent_news st msg o t hst

theorem stock_noPrice_result (st : AgentState) (msg : StockMessage) (now : ℚ)
    (ins : InsightOutcome) (hnp : NoPriceRecord st msg.ticker)
    (ht : msg.ticker ≠ "") (hp : 0 < msg.price) :
    (handle_stock_message st msg now ins).fired = false ∧
    ∃ ts', lookupState (handle_stock_message st msg now ins).state msg.ticker
        = some ts' ∧ ts'.last_price = some msg.price := by
  have hval : ¬ (msg.ticker = "" ∨ msg.price ≤ 0) := by
    rintro (h | h)
    · exact ht h
    · exact absurd hp (not_lt_of_le h)
  rcases stock_cases st msg now ins with ⟨hv, hc, hf⟩ | ⟨_, hn, hc, hf⟩ |
      ⟨_, ts, hts, hc, hf, _⟩ | ⟨_, ts, lp, hts, hlps, _, _, hc, hf⟩
  · exact absurd hv hval
  · exact ⟨hf, ⟨some msg.price, [], none⟩, by rw [hc, lookup_updateState_self], rfl⟩
  · exact ⟨hf, ⟨some msg.price, ts.recent_news_sentiments, ts.last_alert_time⟩,
      by rw [hc, lookup_updateState_self], rfl⟩
  · rcases hnp with hnone | ⟨ts0, hts0, hlp0⟩
    · rw [hts] at hnone
      cases hnone
    · rw [hts] at hts0
      cases hts0
      rw [hlp0] at hlps
      cases hlps

theorem triggerFires_iff (c : ℚ) (la : Option ℚ) (now : ℚ) :
    triggerFires c la now = true ↔
      (|c| ≥ PRICE_CHANGE_THRESHOLD_PERCENT ∧
        (la = none ∨ ∃ t, la = some t ∧ now - t > ALERT_COOLDOWN_SECONDS)) := by
  cases la with
  | none => simp [triggerFires]
  | some t => simp [triggerFires]

theorem stock_ins_irrel (st : AgentState) (msg : StockMessage) (now : ℚ)
    (a b : InsightOutcome) :
    (handle_stock_message st msg now a).state
      = (handle_stock_message st msg now b).state ∧
    (handle_stock_message st msg now a).fired
      = (handle_stock_message st msg now b).fired := by
  rcases stock_cases st msg now a with ⟨hv, hsa, hfa⟩ | ⟨hnv, hn, hsa, hfa⟩ |
      ⟨hnv, ts, hts, hsa, hfa, hco⟩ |
      ⟨hnv, ts, lp, hts, hlp, hpos, htr, hsa, hfa⟩ <;>
    rcases stock_cases st msg now b with ⟨hv', hsb, hfb⟩ | ⟨hnv', hn', hsb, hfb⟩ |
        ⟨hnv', ts', hts', hsb, hfb, hco'⟩ |
        ⟨hnv', ts', lp', hts', hlp', hpos', htr', hsb, hfb⟩
  · exact ⟨hsa.trans hsb.symm, hfa.trans hfb.symm⟩
  · exact absurd hv hnv'
  · exact absurd hv hnv'
  · exact absurd hv hnv'
  · exact absurd hv' hnv
  · exact ⟨hsa.trans hsb.symm, hfa.trans hfb.symm⟩
  · rw [hn] at hts'
    cases hts'
  · rw [hn] at hts'
    cases hts'
  · exact absurd hv' hnv
  · rw [hn'] at hts
    cases hts
  · cases Option.some.inj (hts.symm.trans hts')
    exact ⟨hsa.trans hsb.symm, hfa.trans hfb.symm⟩
  · cases Option.some.inj (hts.symm.trans hts')
    rcases hco with h0 | ⟨lp0, hlp0, h1 | h1⟩
    · rw [h0] at hlp'
      cases hlp'
    · cases Option.some.inj (hlp0.symm.trans hlp')
      exact absurd hpos' h1
    · cases Option.some.inj (hlp0.symm.trans hlp')
      rw [h1] at htr'
      cases htr'
  · exact absurd hv' hnv
  · rw [hn'] at hts
    cases hts
  · cases Option.some.inj (hts.symm.trans hts')
    rcases hco' with h0 | ⟨lp0, hlp0, h1 | h1⟩
    · rw [h0] at hlp
      cases hlp
    · cases Option.some.inj (hlp0.symm.trans hlp)
      exact absurd hpos h1
    · cases Option.some.inj (hlp0.symm.trans hlp)
      rw [h1] at htr
      cases htr
  · cases Option.some.inj (hts.symm.trans hts')
    exact ⟨hsa.trans hsb.symm, hfa.trans hfb.symm⟩

theorem stock_fired_iff (st : AgentState) (msg : StockMessage) (now : ℚ)
    (ins : InsightOutcome) (ts : TickerState) (lp : ℚ)
    (hts : lookupState st msg.ticker = some ts) (hlp : ts.last_price = some lp)
    (hpos : 0 < lp) (hticker : msg.ticker ≠ "") (hprice : 0 < msg.price) :
    (handle_stock_message st msg now ins).fired = true ↔
      (|(msg.price - lp) / lp * 100| ≥ PRICE_CHANGE_THRESHOLD_PERCENT ∧
       (ts.last_alert_time = none ∨
         ∃ t0, ts.last_alert_time = some t0 ∧
           now - t0 > ALERT_COOLDOWN_SECONDS)) := by
  have hval : ¬ (msg.ticker = "" ∨ msg.price ≤ 0) := by
    rintro (h | h)
    · exact hticker h
    · exact absurd hprice (not_lt_of_le h)
  rcases stock_cases st msg now ins with ⟨hv, _, _⟩ | ⟨_, hn, _, _⟩ |
      ⟨_, ts0, hts0, _, hf, hco⟩ | ⟨_, ts0, lp0, hts0, hlp0, _, htr, _, hf⟩
  · exact absurd hv hval
  · rw [hn] at hts
    cases hts
  · cases Option.some.inj (hts0.symm.trans hts)
    rw [hf]
    constructor
    · intro h
      cases h
    · intro hrhs
      exfalso
      rcases hco with h0 | ⟨lp1, hlp1, h1 | h1⟩
      · rw [h0] at hlp
        cases hlp
      · cases Option.some.inj (hlp1.symm.trans hlp)
        exact h1 hpos
      · cases Option.some.inj (hlp1.symm.trans hlp)
        have hc := (triggerFires_iff ((msg.price - lp) / lp * 100)
          ts.last_alert_time now).mpr hrhs
        rw [h1] at hc
        cases hc
  · cases Option.some.inj (hts0.symm.trans hts)
    cases Option.some.inj (hlp0.symm.trans hlp)
    rw [hf]
    exact iff_of_true rfl ((triggerFires_iff _ _ _).mp htr)

/-- C1: for every price event processed for a ticker that already has a
recorded previous price, the trigger fires iff the absolute percent change
reaches the 5.0 threshold and the cooldown has strictly elapsed (no prior
alert, or more than 10 minutes since it); in particular previous 100.00
with current 105.00 fires while 104.99 does not (see the witness). -/
theorem C1_trigger_iff (st : AgentState) (msg : StockMessage) (now : ℚ)
    (ins : InsightOutcome) (ts : TickerState) (lp : ℚ)
    (hts : lookupState st msg.ticker = some ts) (hlp : ts.last_price = some lp)
    (hpos : 0 < lp) (hticker : msg.ticker ≠ "") (hprice : 0 < msg.price) :
    (handle_stock_message st msg now ins).fired = true ↔
      (|(msg.price - lp) / lp * 100| ≥ PRICE_CHANGE_THRESHOLD_PERCENT ∧
       (ts.last_alert_time = none ∨
         ∃ t0, ts.last_alert_time = some t0 ∧
           now - t0 > ALERT_COOLDOWN_SECONDS)) :=
  stock_fired_iff st msg now ins ts lp hts hlp hpos hticker hprice

/-- Witness for C1 at the spec's boundary example: previous price 100.00,
current 105.00 (exactly +5.00%) fires; current 104.99 does not. -/
theorem C1_trigger_iff_witness :
    (handle_stock_message [("NVDA", ⟨some 100, [], none⟩)] ⟨"NVDA", 105, 0⟩ 50
      InsightOutcome.failure).fired = true ∧
    (handle_stock_message [("NVDA", ⟨some 100, [], none⟩)] ⟨"NVDA", 10499/100, 0⟩ 50
      InsightOutcome.failure).fired = false := by
  constructor
  · exact (C1_trigger_iff [("NVDA", ⟨some 100, [], none⟩)] ⟨"NVDA", 105, 0⟩ 50
      InsightOutcome.failure ⟨some 100, [], none⟩ 100 (by decide) rfl (by decide)
      (by decide) (by decide)).mpr ⟨by decide, Or.inl rfl⟩
  · have h := C1_trigger_iff [("NVDA", ⟨some 100, [], none⟩)] ⟨"NVDA", 10499/100, 0⟩
      50 InsightOutcome.failure ⟨some 100, [], none⟩ 100 (by decide) rfl (by decide)
      (by decide) (by decide)
    cases hfv : (handle_stock_message [("NVDA", ⟨some 100, [], none⟩)]
        ⟨"NVDA", 10499/100, 0⟩ 50 InsightOutcome.failure).fired with
    | false => rfl
    | true => exact absurd (h.mp hfv).1 (by decide)

/-- C2: after any sequence of events from the initial state, every record's
sentiment window has at most MAX_NEWS_HISTORY entries and every adjacent
pair of entries has non-increasing timestamps. -/
theorem C2_window_invariant (events : List Event) (k : String) (ts : TickerState)
    (h : lookupState (processEvents agent_state_init events) k = some ts) :
    ts.recent_news_sentiments.length ≤ MAX_NEWS_HISTORY ∧
    List.Chain' (fun a b => b.1 ≤ a.1) ts.recent_news_sentiments :=
  stateWF_processEvents events agent_state_init stateWF_init k ts h

/-- Witness for C2: four news events leave NVDA's window truncated to the
three most recent sentiments, sorted by timestamp descending. -/
theorem C2_window_invariant_witness :
    lookupState (processEvents agent_state_init
        [.news ⟨"a", "s", 3⟩ (.response "POSITIVE"),
         .news ⟨"b", "s", 1⟩ (.response "NEGATIVE"),
         .news ⟨"c", "s", 9⟩ (.response "NEUTRAL"),
         .news ⟨"d", "s", 5⟩ (.response "POSITIVE")]) "NVDA"
      = some ⟨none, [(9, "NEUTRAL"), (5, "POSITIVE"), (3, "POSITIVE")], none⟩ ∧
    ([((9:ℚ), "NEUTRAL"), (5, "POSITIVE"), (3, "POSITIVE")].length ≤ MAX_NEWS_HISTORY ∧
     List.Chain' (fun a b => b.1 ≤ a.1)
       [((9:ℚ), "NEUTRAL"), (5, "POSITIVE"), (3, "POSITIVE")]) :=
  ⟨by decide,
   C2_window_invariant
     [.news ⟨"a", "s", 3⟩ (.response "POSITIVE"),
      .news ⟨"b", "s", 1⟩ (.response "NEGATIVE"),
      .news ⟨"c", "s", 9⟩ (.response "NEUTRAL"),
      .news ⟨"d", "s", 5⟩ (.response "POSITIVE")] "NVDA"
     ⟨none, [(9, "NEUTRAL"), (5, "POSITIVE"), (3, "POSITIVE")], none⟩ (by decide)⟩

/-- C3: the first valid price event ever seen for a ticker — no valid
price event for it occurs earlier in the trace — never fires the trigger,
and the event's price is recorded. -/
theorem C3_first_price_no_trigger (events : List Event) (msg : StockMessage)
    (now : ℚ) (ins : InsightOutcome)
    (hfirst : ∀ e ∈ events, ¬ IsValidPriceEventFor msg.ticker e)
    (hticker : msg.ticker ≠ "") (hprice : 0 < msg.price) :
    (handle_stock_message (processEvents agent_state_init events)
        msg now ins).fired = false ∧
    ∃ ts', lookupState (handle_stock_message (processEvents agent_state_init
        events) msg now ins).state msg.ticker = some ts' ∧
      ts'.last_price = some msg.price :=
  stock_noPrice_result _ msg now ins
    (noPrice_processEvents msg.ticker events agent_state_init
      (noPrice_init msg.ticker) hfirst)
    hticker hprice

/-- Witness for C3: the very first price event for NVDA, with an extreme
price, does not fire and records the price. -/
theorem C3_first_price_no_trigger_witness :
    (handle_stock_message (processEvents agent_state_init [])
        ⟨"NVDA", 99999, 0⟩ 0 InsightOutcome.failure).fired = false ∧
    ∃ ts', lookupState (handle_stock_message (processEvents agent_state_init [])
        ⟨"NVDA", 99999, 0⟩ 0 InsightOutcome.failure).state "NVDA" = some ts' ∧
      ts'.last_price = some 99999 :=
  C3_first_price_no_trigger [] ⟨"NVDA", 99999, 0⟩ 0 InsightOutcome.failure
    (by intro e he; cases he) (by decide) (by decide)

/-- C4: the stock handler's resulting state (and fired flag) is the same
whatever the insight call's outcome — unavailable chain, raised call or
returned text — and whenever the trigger fires, the ticker's stored alert
time equals the handler's clock reading `now`. -/
theorem C4_insight_isolation (st : AgentState) (msg : StockMessage) (now : ℚ)
    (a b : InsightOutcome) :
    ((handle_stock_message st msg now a).state
        = (handle_stock_message st msg now b).state) ∧
    ((handle_stock_message st msg now a).fired = true →
      ∃ ts', lookupState (handle_stock_message st msg now a).state msg.ticker
          = some ts' ∧ ts'.last_alert_time = some now) := by
  refine ⟨(stock_ins_irrel st msg now a b).1, ?_⟩
  intro hf
  rcases stock_cases st msg now a with ⟨_, _, hfa⟩ | ⟨_, _, _, hfa⟩ |
      ⟨_, ts, _, _, hfa, _⟩ | ⟨_, ts, lp, _, _, _, _, hsa, _⟩
  · rw [hfa] at hf
    cases hf
  · rw [hfa] at hf
    cases hf
  · rw [hfa] at hf
    cases hf
  · exact ⟨⟨some msg.price, ts.recent_news_sentiments, some now⟩,
      by rw [hsa]; exact lookup_updateState_self _ _ _, rfl⟩

/-- Witness for C4: a fired trigger yields the same state under a failed
and a successful insight call, and stores the alert time 50. -/
theorem C4_insight_isolation_witness :
    ((handle_stock_message [("NVDA", ⟨some 100, [], none⟩)] ⟨"NVDA", 105, 0⟩ 50
        InsightOutcome.failure).state
      = (handle_stock_message [("NVDA", ⟨some 100, [], none⟩)] ⟨"NVDA", 105, 0⟩ 50
        (InsightOutcome.success "text")).state) ∧
    ∃ ts', lookupState (handle_stock_message [("NVDA", ⟨some 100, [], none⟩)]
        ⟨"NVDA", 105, 0⟩ 50 InsightOutcome.failure).state "NVDA"
      = some ts' ∧ ts'.last_alert_time = some 50 := by
  obtain ⟨h1, h2⟩ := C4_insight_isolation [("NVDA", ⟨some 100, [], none⟩)]
    ⟨"NVDA", 105, 0⟩ 50 InsightOutcome.failure (InsightOutcome.success "text")
  exact ⟨h1, h2 (by decide)⟩

/-- C5: only sentiments among POSITIVE/NEGATIVE/NEUTRAL are persisted into
the window; when classification yields UNKNOWN or a failure marker the
news handler leaves the state unchanged, and every window entry after any
news event is either an old entry or carries a valid sentiment. -/
theorem C5_sentiment_persistence (st : AgentState) (msg : NewsMessage)
    (o : LLMOutcome) :
    ((analyze_news_sentiment msg.headline o = "UNKNOWN" ∨
      analyze_news_sentiment msg.headline o = "ERROR_LLM_UNAVAILABLE" ∨
      analyze_news_sentiment msg.headline o = "ERROR_API_CALL") →
        handle_news_message st msg o = st) ∧
    (∀ k ts', lookupState (handle_news_message st msg o) k = some ts' →
      ∀ e ∈ ts'.recent_news_sentiments,
        e.2 ∈ VALID_SENTIMENTS ∨
        ∃ ts, lookupState st k = some ts ∧ e ∈ ts.recent_news_sentiments) := by
  constructor
  · intro hbad
    rcases news_cases st msg o with hc | ⟨ts0, hts0, hguard, hc⟩
    · exact hc
    · exfalso
      rcases hbad with h | h | h <;> rw [h] at hguard <;>
        exact absurd hguard (by decide)
  · intro k ts' hk e he
    rcases news_cases st msg o with hc | ⟨ts0, hts0, hguard, hc⟩
    · rw [hc] at hk
      exact Or.inr ⟨ts', hk, he⟩
    · rw [hc] at hk
      by_cases hkn : k = "NVDA"
      · subst hkn
        rw [lookup_updateState_self] at hk
        cases hk
        have hmem : e ∈ ts0.recent_news_sentiments ++
            [(msg.timestamp, analyze_news_sentiment msg.headline o)] :=
          mem_sortByTimeDesc.mp (List.take_subset _ _ he)
        rcases List.mem_append.mp hmem with hold | hnew
        · exact Or.inr ⟨ts0, hts0, hold⟩
        · left
          have he2 : e = (msg.timestamp, analyze_news_sentiment msg.headline o) := by
            simpa using hnew
          rw [he2]
          have hset := analyze_result_set msg.headline o
          simp only [List.mem_cons, List.not_mem_nil, or_false] at hset
          rcases hset with h | h | h | h | h | h
          · simp [VALID_SENTIMENTS, h]
          · simp [VALID_SENTIMENTS, h]
          · simp [VALID_SENTIMENTS, h]
          · rw [h] at hguard
            exact absurd hguard (by decide)
          · rw [h] at hguard
            exact absurd hguard (by decide)
          · rw [h] at hguard
            exact absurd hguard (by decide)
      · rw [lookup_updateState_ne _ _ _ _ hkn] at hk
        exact Or.inr ⟨ts', hk, he⟩

/-- Witness for C5: a failed classifier call leaves the state unchanged,
and a persisted POSITIVE entry is accounted for by the valid set. -/
theorem C5_sentiment_persistence_witness :
    handle_news_message agent_state_init ⟨"h", "s", 1⟩ LLMOutcome.apiError
      = agent_state_init ∧
    ((((1:ℚ), "POSITIVE")).2 ∈ VALID_SENTIMENTS ∨
      ∃ ts, lookupState agent_state_init "NVDA" = some ts ∧
        ((1:ℚ), "POSITIVE") ∈ ts.recent_news_sentiments) := by
  refine ⟨(C5_sentiment_persistence agent_state_init ⟨"h", "s", 1⟩
      LLMOutcome.apiError).1 (Or.inr (Or.inr rfl)), ?_⟩
  exact (C5_sentiment_persistence agent_state_init ⟨"h", "s", 1⟩
      (LLMOutcome.response "POSITIVE")).2 "NVDA" ⟨none, [(1, "POSITIVE")], none⟩
      (by decide) ((1:ℚ), "POSITIVE") (by decide)

/-- C7 counterexample: the claim "for every identifier, no state record
exists before its first price event" is false at "NVDA" — before any event
is processed the state already holds a record for it. -/
theorem C7_counterexample :
    lookupState (processEvents agent_state_init []) "NVDA"
      = some ⟨none, [], none⟩ := by decide

/-- C7 amended: for every identifier other than the pre-initialized
"NVDA", no record exists before the identifier's first valid price event,
and that first price event creates the record seeded with the event's
price, an empty sentiment window and no alert time. -/
theorem C7_lazy_creation (events : List Event) (msg : StockMessage)
    (now : ℚ) (ins : InsightOutcome) (htn : msg.ticker ≠ "NVDA")
    (hfirst : ∀ e ∈ events, ¬ IsValidPriceEventFor msg.ticker e)
    (hticker : msg.ticker ≠ "") (hprice : 0 < msg.price) :
    lookupState (processEvents agent_state_init events) msg.ticker = none ∧
    lookupState (handle_stock_message (processEvents agent_state_init events)
        msg now ins).state msg.ticker = some ⟨some msg.price, [], none⟩ := by
  have habs : lookupState (processEvents agent_state_init events) msg.ticker
      = none := by
    refine absent_processEvents msg.ticker events agent_state_init ?_ hfirst
    unfold agent_state_init lookupState
    rw [if_neg (fun h => htn h.symm)]
    rfl
  refine ⟨habs, ?_⟩
  rcases stock_cases (processEvents agent_state_init events) msg now ins with
      ⟨hv, _, _⟩ | ⟨_, _, hc, _⟩ | ⟨_, ts, hts, _, _⟩ | ⟨_, ts, lp, hts, _⟩
  · refine absurd hv ?_
    rintro (h | h)
    · exact hticker h
    · exact absurd hprice (not_lt_of_le h)
  · rw [hc]
    exact lookup_updateState_self _ _ _
  · rw [habs] at hts
    cases hts
  · rw [habs] at hts
    cases hts

/-- Witness for C7's amended claim: a fresh ticker "TSLA" has no record in
the empty trace and its first price event creates the seeded record. -/
theorem C7_lazy_creation_witness :
    lookupState (processEvents agent_state_init []) "TSLA" = none ∧
    lookupState (handle_stock_message (processEvents agent_state_init [])
        ⟨"TSLA", 7, 0⟩ 0 InsightOutcome.failure).state "TSLA"
      = some ⟨some 7, [], none⟩ :=
  C7_lazy_creation [] ⟨"TSLA", 7, 0⟩ 0 InsightOutcome.failure
    (by decide) (by intro e he; cases he) (by decide) (by decide)

/-- C8: a stock message with an empty ticker or a non-positive price, and
a news message with an empty headline, are dropped without any state
mutation. -/
theorem C8_validation (st : AgentState) (smsg : StockMessage) (now : ℚ)
    (ins : InsightOutcome) (nmsg : NewsMessage) (o : LLMOutcome) :
    ((smsg.ticker = "" ∨ smsg.price ≤ 0) →
      (handle_stock_message st smsg now ins).state = st) ∧
    (nmsg.headline = "" → handle_news_message st nmsg o = st) := by
  constructor
  · intro h
    rw [stock_invalid st smsg now ins h]
  · exact news_invalid st nmsg o

/-- Witness for C8: an empty-ticker stock message and an empty-headline
news message leave the initial state unchanged. -/
theorem C8_validation_witness :
    (handle_stock_message agent_state_init ⟨"", 5, 0⟩ 0
        InsightOutcome.failure).state = agent_state_init ∧
    handle_news_message agent_state_init ⟨"", "src", 0⟩ LLMOutcome.apiError
      = agent_state_init := by
  obtain ⟨h1, h2⟩ := C8_validation agent_state_init ⟨"", 5, 0⟩ 0
    InsightOutcome.failure ⟨"", "src", 0⟩ LLMOutcome.apiError
  exact ⟨h1 (Or.inl rfl), h2 rfl⟩

/-- C9: the sentiment classification helper is total over all modelled
outcomes and always returns exactly one tag of the closed result set. -/
theorem C9_classifier_total (headline : String) (o : LLMOutcome) :
    analyze_news_sentiment headline o ∈
      ["POSITIVE", "NEGATIVE", "NEUTRAL", "UNKNOWN",
       "ERROR_LLM_UNAVAILABLE", "ERROR_API_CALL"] :=
  analyze_result_set headline o

/-- C10: processing a news event changes no key other than "NVDA", creates
no key, and leaves every record's last price and last alert time
unchanged. -/
theorem C10_news_frame (st : AgentState) (msg : NewsMessage) (o : LLMOutcome) :
    (∀ k, k ≠ "NVDA" →
      lookupState (handle_news_message st msg o) k = lookupState st k) ∧
    (∀ k, (lookupState (handle_news_message st msg o) k).isSome
        = (lookupState st k).isSome) ∧
    (∀ k ts ts', lookupState st k = some ts →
      lookupState (handle_news_message st msg o) k = some ts' →
      ts'.last_price = ts.last_price ∧
        ts'.last_alert_time = ts.last_alert_time) :=
  ⟨fun k hk => news_lookup_ne st msg o k hk,
   fun k => news_keys st msg o k,
   fun k ts ts' h1 h2 => news_preserves_fields st msg o k ts ts' h1 h2⟩

/-- Witness for C10: a persisted news event leaves the key "TSLA" alone
and preserves NVDA's last price. -/
theorem C10_news_frame_witness :
    lookupState (handle_news_message agent_state_init ⟨"h", "s", 1⟩
        (LLMOutcome.response "POSITIVE")) "TSLA"
      = lookupState agent_state_init "TSLA" ∧
    (⟨none, [((1:ℚ), "POSITIVE")], none⟩ : TickerState).last_price
      = (⟨none, [], none⟩ : TickerState).last_price := by
  obtain ⟨h1, _, h3⟩ := C10_news_frame agent_state_init ⟨"h", "s", 1⟩
    (LLMOutcome.response "POSITIVE")
  exact ⟨h1 "TSLA" (by decide),
    (h3 "NVDA" ⟨none, [], none⟩ ⟨none, [(1, "POSITIVE")], none⟩
      (by decide) (by decide)).1⟩

end PFM
